import Mathlib

/-
Shallow embedding of the AFEM geometric-proximity and topological-
synchronization core:

  * afem/geometry/distance.py  — the Extrema Engine (five operand-pair
    kinds of nearest-feature computation), and
  * afem/structure/join.py     — the Part Synchronization Orchestrator
    (fuse, fuse-by-reference-curve, cut, sew, split, fuse-assemblies).

The underlying OCCT kernel (Extrema solvers, Boolean and sewing
primitives) and the repository modules that are not shown in the sources
(afem/topology/*, afem/structure/entities.py) are modelled as explicit
oracle structures whose fields mirror the interface the shown code calls.
Python floats are idealized as rationals, except for distances, which the
source obtains with math.sqrt and which are therefore real numbers.
Python exceptions are modelled with an error type and Except.
-/

namespace AFEM

/-- The Python exceptions that the embedded code can raise: RuntimeError
with its message, IndexError from indexing an empty list, KeyError from a
missing dict key, TypeError and ValueError with their messages. -/
inductive PyError : Type where
  | runtimeError : String → PyError
  | indexError : PyError
  | keyError : PyError
  | typeError : String → PyError
  | valueError : String → PyError
deriving DecidableEq, Repr

/-! ## Extrema Engine (afem/geometry/distance.py)

Each of the five classes queries an OCCT extrema solver, raises
RuntimeError when the solver is not done, extracts one row
(sqrt of squared distance, payload) per solution index 1..NbExt, sorts
the rows ascending by distance with a stable sort (Python list.sort with
a distance key), and stores the minimum, maximum and per-column lists.
The solver is modelled as a structure recording exactly what the code
reads from it. -/

/-- Result of an OCCT point-extrema solver (Extrema_ExtPC or
Extrema_ExtPS) as read by the code: IsDone, NbExt, SquareDistance and the
Point objects, flattened into the parameter value and the gp point id.
Point objects are abstract ids; squared distances and parameters are
rationals. Indexing is 1-based as in OCCT. -/
structure ExtPC where
  isDone : Bool
  nbExt : Nat
  squareDistance : Nat → ℚ
  parameter : Nat → ℚ
  point : Nat → Nat

/-- Result of an OCCT point-to-surface extrema solver: the parameter is a
(u, v) pair. -/
structure ExtPS where
  isDone : Bool
  nbExt : Nat
  squareDistance : Nat → ℚ
  parameter : Nat → ℚ × ℚ
  point : Nat → Nat

/-- Result of an OCCT two-operand extrema solver (Extrema_ExtCC,
Extrema_ExtCS or Extrema_ExtSS) as read by the code: IsDone, NbExt,
IsParallel, SquareDistance and the pair of gp points per index. -/
structure ExtTwo where
  isDone : Bool
  nbExt : Nat
  squareDistance : Nat → ℚ
  points : Nat → Nat × Nat
  isParallel : Bool

/-- Insert a row into a list of rows that is already ascending by the
distance component, before the first row of larger or equal distance is
NOT done: the row goes after every row of smaller or equal distance,
which is exactly where Python stable sort keeps it. -/
noncomputable def insertByDist {α : Type} (x : ℝ × α) : List (ℝ × α) → List (ℝ × α)
  | [] => [x]
  | y :: ys => if x.1 ≤ y.1 then x :: y :: ys else y :: insertByDist x ys

/-- Stable ascending sort of rows by their distance component, modelling
Python list.sort with key fun tup : tup[0]. -/
noncomputable def sortByDist {α : Type} : List (ℝ × α) → List (ℝ × α)
  | [] => []
  | x :: xs => insertByDist x (sortByDist xs)

/-- The block shared verbatim by all five distance classes:
results.sort(key=...), then dmin = results[0][0] and
dmax = results[-1][0]. Reading results[0] of an empty list raises
IndexError, modelled by the none branch. -/
noncomputable def buildReport {α : Type} (rows : List (ℝ × α)) :
    Option (ℝ × ℝ × List (ℝ × α)) :=
  match sortByDist rows with
  | [] => none
  | r0 :: rest => some (r0.1, (rest.getLastD r0).1, r0 :: rest)

/-- The sorted report stored by a distance class: number of solutions,
minimum and maximum distance, the sorted distance column and the sorted
payload column (parameters and points, depending on the class). -/
structure GenReport (α : Type) where
  nsol : Nat
  dmin : ℝ
  dmax : ℝ
  distances : List ℝ
  rows : List α

/-- The body shared by the five distance classes, parameterized by the
RuntimeError message and by what the class extracts per solution index:
check IsDone, build one row (math.sqrt of SquareDistance, payload) per
index 1..NbExt, sort ascending by distance, store min, max and the
columns. -/
noncomputable def extremaCore {α : Type} (msg : String) (done : Bool) (n : Nat)
    (sq : Nat → ℚ) (payload : Nat → α) : Except PyError (GenReport α) :=
  if done = false then
    .error (.runtimeError msg)
  else
    match buildReport ((List.range n).map
        (fun k => (Real.sqrt ((sq (k + 1) : ℚ) : ℝ), payload (k + 1)))) with
    | none => .error .indexError
    | some (dmin, dmax, sorted) =>
      .ok { nsol := n, dmin := dmin, dmax := dmax,
            distances := sorted.map (fun r => r.1),
            rows := sorted.map (fun r => r.2) }

/-- DistancePointToCurve.__init__: payload per solution is the curve
parameter and the point converted with CheckGeom.to_point, modelled by
the conversion map tp. -/
noncomputable def DistancePointToCurve (s : ExtPC) (tp : Nat → Nat) :
    Except PyError (GenReport (ℚ × Nat)) :=
  extremaCore "Extrema between point and curve failed." s.isDone s.nbExt
    s.squareDistance (fun i => (s.parameter i, tp (s.point i)))

/-- DistancePointToSurface.__init__: payload per solution is the (u, v)
surface parameter pair and the converted point. -/
noncomputable def DistancePointToSurface (s : ExtPS) (tp : Nat → Nat) :
    Except PyError (GenReport ((ℚ × ℚ) × Nat)) :=
  extremaCore "Extrema between point and surface failed." s.isDone s.nbExt
    s.squareDistance (fun i => (s.parameter i, tp (s.point i)))

/-- DistanceCurveToCurve.__init__: payload per solution is the converted
pair of points; the IsParallel flag is stored alongside the report. -/
noncomputable def DistanceCurveToCurve (s : ExtTwo) (tp : Nat → Nat) :
    Except PyError (GenReport (Nat × Nat) × Bool) :=
  (extremaCore "Extrema between two curves failed." s.isDone s.nbExt
    s.squareDistance (fun i => (tp (s.points i).1, tp (s.points i).2))).map
    (fun rep => (rep, s.isParallel))

/-- DistanceCurveToSurface.__init__. -/
noncomputable def DistanceCurveToSurface (s : ExtTwo) (tp : Nat → Nat) :
    Except PyError (GenReport (Nat × Nat) × Bool) :=
  (extremaCore "Extrema between curve and surface failed." s.isDone s.nbExt
    s.squareDistance (fun i => (tp (s.points i).1, tp (s.points i).2))).map
    (fun rep => (rep, s.isParallel))

/-- DistanceSurfaceToSurface.__init__. The RuntimeError message in the
source reads Extrema between curve and surface failed, the same string
as DistanceCurveToSurface. -/
noncomputable def DistanceSurfaceToSurface (s : ExtTwo) (tp : Nat → Nat) :
    Except PyError (GenReport (Nat × Nat) × Bool) :=
  (extremaCore "Extrema between curve and surface failed." s.isDone s.nbExt
    s.squareDistance (fun i => (tp (s.points i).1, tp (s.points i).2))).map
    (fun rep => (rep, s.isParallel))

/-- What a successful extrema report must look like per the spec: a
non-empty distance list, ascending, whose first element is the stored
minimum and whose last element is the stored maximum. -/
def SortedDistOk (dmin dmax : ℝ) (ds : List ℝ) : Prop :=
  ds ≠ [] ∧ List.Sorted (· ≤ ·) ds ∧ ds.head? = some dmin ∧
    ds.getLast? = some dmax

/-! ## Part Synchronization Orchestrator (afem/structure/join.py)

Shapes are abstract ids. A part is the state of an
afem.structure.entities part object as join.py reads and writes it: its
object identity, its current shape, whether it has a reference curve and
which, and whether it is an instance of SurfacePart. The OCCT-backed
repository modules that join.py imports (afem/topology/bop, check,
create, explore, modify and the part methods cut and fuse) are not in the
shown sources and are modelled as an oracle structure from the spec. -/

/-- A topological shape, by id. -/
abbrev Shape := Nat

/-- The state of one part object as read and written by join.py. -/
structure Part where
  pid : Nat
  shape : Shape
  has_cref : Bool
  cref : Nat
  isSurface : Bool
deriving DecidableEq, Repr

/-- Modelled from the spec: the report of a built Boolean primitive
(FuseShapes, SplitShapes from afem/topology/bop.py, not in the shown
sources). Per section 6 it exposes is_done, the resulting aggregate
shape, and a queryable old-to-new shape modification relation; per the
ModificationMap data model an input shape maps to zero, one or many
output shapes, with unmodified shapes distinguished (none = untouched,
some list = replaced by the listed shapes, an empty list = deleted). -/
structure BopReport where
  isDone : Bool
  shape : Shape
  mods : Shape → Option (List Shape)

/-- Modelled from the spec: the report of a performed SewShape
(afem/topology/modify.py, not in the shown sources), exposing
is_modified(shape) and modified(shape) per section 6. -/
structure SewReport where
  is_modified : Shape → Bool
  modified : Shape → Shape

/-- Modelled from the spec: the external kernel and repository facilities
join.py calls, one field per callable. fuseShapes and splitShapes take
the args shapes, the tools shapes and the optional fuzzy value and stand
for constructing the primitive, set_args, set_tools and build.
compound is CompoundByShapes, globalTolerance is
ExploreShape.global_tolerance(shape, mode), edgeByCurve is
EdgeByCurve(curve).edge, intersectVertices is the vertices of
IntersectShapes(e1, e2, fuzzy_val=tol), toShape is CheckShape.to_shape,
cutPart is the part method cut returning a success boolean and the
updated part, sewShape is SewShape(tol, max_tol, cut_free_edges,
non_manifold) with all shapes added and perform called. -/
structure Kernel where
  fuseShapes : List Shape → List Shape → Option ℚ → BopReport
  splitShapes : List Shape → List Shape → Option ℚ → BopReport
  compound : List Shape → Shape
  globalTolerance : Shape → Nat → ℚ
  edgeByCurve : Nat → Nat
  intersectVertices : Nat → Nat → ℚ → List Nat
  toShape : Shape → Shape
  cutPart : Part → Shape → Bool × Part
  sewShape : ℚ → ℚ → Bool → Bool → List Shape → SewReport

/-- Modelled from the spec: RebuildShapesByTool(shapes, bop).new_shape
(afem/topology/modify.py, not in the shown sources). Per section 4.2: an
unmodified shape resolves to itself, one generated shape resolves to
that shape, several fragments resolve to their compound, and a deleted
shape with no replacement must fail loudly. -/
def rebuildNewShape (K : Kernel) (b : BopReport) (s : Shape) :
    Except PyError Shape :=
  match b.mods s with
  | none => .ok s
  | some [] => .error (.runtimeError "Shape was deleted with no replacement.")
  | some [s2] => .ok s2
  | some l => .ok (K.compound l)

/-- Sequential effectful loop over a list, stopping at the first raised
error: the shape-rebuild loops of join.py. -/
def mapE {α β : Type} (f : α → Except PyError β) : List α → Except PyError (List β)
  | [] => .ok []
  | x :: xs =>
    match f x with
    | .error e => .error e
    | .ok y =>
      match mapE f xs with
      | .error e => .error e
      | .ok ys => .ok (y :: ys)

/-- FuseSurfaceParts.__init__: fuse the args part shapes with the tools
part shapes, then rebuild every part of parts + tools in place through
the resolver, then store bop.is_done and bop.shape. Returns the updated
parts ++ tools, the is_done flag and the fused shape. -/
def FuseSurfaceParts (K : Kernel) (parts tools : List Part)
    (fuzzy_val : Option ℚ) : Except PyError (List Part × Bool × Shape) :=
  let args := parts.map (fun p => p.shape)
  let toolShapes := tools.map (fun p => p.shape)
  let bop := K.fuseShapes args toolShapes fuzzy_val
  (mapE (fun p => (rebuildNewShape K bop p.shape).map
      (fun ns => { p with shape := ns })) (parts ++ tools)).map
    (fun newParts => (newParts, bop.isDone, bop.shape))

/-- SplitParts.__init__: split the args part shapes with the optional
tool part shapes, rebuild every part in place, store bop.is_done and
bop.shape. When tools is none the source never calls set_tools, which is
modelled as an empty tools list. -/
def SplitParts (K : Kernel) (parts : List Part) (tools : Option (List Part))
    (fuzzy_val : Option ℚ) : Except PyError (List Part × Bool × Shape) :=
  let args := parts.map (fun p => p.shape)
  let toolShapes := match tools with
    | none => []
    | some ts => ts.map (fun p => p.shape)
  let bop := K.splitShapes args toolShapes fuzzy_val
  (mapE (fun p => (rebuildNewShape K bop p.shape).map
      (fun ns => { p with shape := ns })) parts).map
    (fun newParts => (newParts, bop.isDone, bop.shape))

/-- CutParts.__init__: convert the cutting shape once, then cut each part
separately, recording the returned success boolean per part in the
status dict keyed by part identity. Returns the updated parts and the
status entries in loop order. -/
def CutParts (K : Kernel) (parts : List Part) (shape : Shape) :
    List Part × List (Nat × Bool) :=
  let shape2 := K.toShape shape
  (parts.map (fun p => (K.cutPart p shape2).2),
   parts.map (fun p => (p.pid, (K.cutPart p shape2).1)))

/-- CutParts.was_cut: read the status dict at the given part; a part
absent from the dict raises KeyError. -/
def was_cut (status : List (Nat × Bool)) (p : Part) : Except PyError Bool :=
  match List.lookup p.pid status with
  | some b => .ok b
  | none => .error .keyError

/-- The sewing tolerance used by SewSurfaceParts: the caller value, or
the numpy mean of each part shape average tolerance when omitted. -/
def sewToleranceUsed (K : Kernel) (parts : List Part) (tol : Option ℚ) : ℚ :=
  match tol with
  | some t => t
  | none =>
    let vals := parts.map (fun p => K.globalTolerance p.shape 0)
    vals.sum / (vals.length : ℚ)

/-- The maximum sewing tolerance used by SewSurfaceParts: the caller
value, or the Python max over each part shape maximum tolerance when
omitted, which raises ValueError on an empty sequence. -/
def sewMaxToleranceUsed (K : Kernel) (parts : List Part) (max_tol : Option ℚ) :
    Except PyError ℚ :=
  match max_tol with
  | some t => .ok t
  | none =>
    match (parts.map (fun p => K.globalTolerance p.shape 1)).max? with
    | some m => .ok m
    | none => .error (.valueError "max() arg is an empty sequence")

/-- The performed SewShape of SewSurfaceParts.__init__: built with the
two working tolerances, cut_free_edges=True and non_manifold=True, with
every part shape added before perform. -/
def sewReportOf (K : Kernel) (parts : List Part) (tol max_tol : Option ℚ) :
    Except PyError SewReport :=
  match sewMaxToleranceUsed K parts max_tol with
  | .error e => .error e
  | .ok mt =>
    .ok (K.sewShape (sewToleranceUsed K parts tol) mt true true
      (parts.map (fun p => p.shape)))

/-- SewSurfaceParts.__init__: after performing the sew, every part whose
shape the sew reports as modified is rewritten to the modified shape;
parts reported unmodified are skipped by the continue and keep their
shape untouched. -/
def SewSurfaceParts (K : Kernel) (parts : List Part) (tol max_tol : Option ℚ) :
    Except PyError (List Part) :=
  match sewReportOf K parts tol max_tol with
  | .error e => .error e
  | .ok sew =>
    .ok (parts.map (fun p =>
      if sew.is_modified p.shape then { p with shape := sew.modified p.shape }
      else p))

/-- The reference-curve intersection test for one (main, other) pair of
FuseSurfacePartsByCref.__init__: skip when either part lacks a reference
curve; take the caller tolerance, or when omitted the maximum of the two
part shape maximum tolerances; build one edge per reference curve and
intersect them at that tolerance; the pair joins when the intersection
has at least one vertex. -/
def crefPairIntersects (K : Kernel) (tol : Option ℚ) (main other : Part) :
    Bool :=
  if !main.has_cref || !other.has_cref then false
  else
    let t := match tol with
      | none => max (K.globalTolerance main.shape 1)
          (K.globalTolerance other.shape 1)
      | some v => v
    let e1 := K.edgeByCurve main.cref
    let e2 := K.edgeByCurve other.cref
    !(K.intersectVertices e1 e2 t).isEmpty

/-- The i < j pair enumeration of FuseSurfacePartsByCref.__init__: for
each main part in input order, the candidate others are the later parts
whose reference curve intersects the main one; only mains with at least
one candidate are kept, paired with their candidate list. The source
never takes the last part as main; here the last main simply has no
later parts, which yields the same groups and performs no kernel call. -/
def crefGroupsAux (K : Kernel) (tol : Option ℚ) : List Part → List (Part × List Part)
  | [] => []
  | main :: rest =>
    if (rest.filter (fun other => crefPairIntersects K tol main other)).isEmpty
    then crefGroupsAux K tol rest
    else (main, rest.filter (fun other => crefPairIntersects K tol main other))
      :: crefGroupsAux K tol rest

/-- The ordered (main, other) pairs that the double loop of
FuseSurfacePartsByCref.__init__ draws: every pair with outer index
strictly below inner index, in enumeration order. -/
def crefPairsTested : List Part → List (Part × Part)
  | [] => []
  | main :: rest => rest.map (fun other => (main, other)) ++ crefPairsTested rest

/-- FuseSurfacePartsByCref.__init__: raise TypeError unless every part
is a surface part; build the join groups from the pairwise
reference-curve tests; fuse each main with all its candidates in one
call (each returned group is one such fuse invocation) setting is_done
on each, so is_done is true exactly when some group exists. -/
def FuseSurfacePartsByCref (K : Kernel) (parts : List Part) (tol : Option ℚ) :
    Except PyError (List (Part × List Part) × Bool) :=
  if parts.all (fun p => p.isSurface) then
    let groups := crefGroupsAux K tol parts
    .ok (groups, !groups.isEmpty)
  else
    .error (.typeError "Part is not a surface part.")

/-- An assembly as read by FuseAssemblies: get_parts(include_subassy)
returns its ordered parts. Modelled from the spec, section 6, since
afem/structure/assembly.py is not in the shown sources. -/
structure Assembly where
  get_parts : Bool → List Part

/-- The assembly with no parts, standing in for the unreachable head of
an empty list after the length guard. -/
def emptyAssembly : Assembly := ⟨fun _ => []⟩

/-- FuseAssemblies.__init__: raise ValueError with fewer than two
assemblies before any kernel call; otherwise compound the first assembly
parts into the single arg shape, compound each remaining assembly into
one tool shape, fuse, and rebuild every part of every assembly in place.
Returns the updated parts, is_done and the fused shape. -/
def FuseAssemblies (K : Kernel) (assys : List Assembly) (fuzzy_val : Option ℚ)
    (include_subassy : Bool) : Except PyError (List Part × Bool × Shape) :=
  if assys.length < 2 then
    .error (.valueError "Not enough assemblies to fuse. Need at least two.")
  else
    let parts1 := (assys.headD emptyAssembly).get_parts include_subassy
    let rest := assys.tail
    let shape1 := K.compound (parts1.map (fun p => p.shape))
    let other_parts := (rest.map (fun a => a.get_parts include_subassy)).flatten
    let tools := rest.map (fun a =>
      K.compound ((a.get_parts include_subassy).map (fun p => p.shape)))
    let bop := K.fuseShapes [shape1] tools fuzzy_val
    let all_parts := parts1 ++ other_parts
    (mapE (fun p => (rebuildNewShape K bop p.shape).map
        (fun ns => { p with shape := ns })) all_parts).map
      (fun newParts => (newParts, bop.isDone, bop.shape))

/-! ## Concrete inputs used to instantiate the theorems below -/

/-- A done point-extrema solver with two solutions. -/
def wPC : ExtPC := ⟨true, 2, fun _ => 1, fun _ => 0, fun _ => 5⟩

/-- A done point-to-surface solver with one solution. -/
def wPS : ExtPS := ⟨true, 1, fun _ => 4, fun _ => (0, 0), fun _ => 5⟩

/-- A done two-operand solver with two solutions. -/
def wTwo : ExtTwo := ⟨true, 2, fun _ => 9, fun _ => (3, 4), false⟩

/-- A solver reporting done with zero solutions. -/
def zPC : ExtPC := ⟨true, 0, fun _ => 0, fun _ => 0, fun _ => 0⟩

/-- A point-to-surface solver reporting done with zero solutions. -/
def zPS : ExtPS := ⟨true, 0, fun _ => 0, fun _ => (0, 0), fun _ => 0⟩

/-- A two-operand solver reporting done with zero solutions. -/
def zTwo : ExtTwo := ⟨true, 0, fun _ => 0, fun _ => (0, 0), false⟩

/-- A point-extrema solver reporting not done. -/
def ndPC : ExtPC := ⟨false, 0, fun _ => 0, fun _ => 0, fun _ => 0⟩

/-- A point-to-surface solver reporting not done. -/
def ndPS : ExtPS := ⟨false, 0, fun _ => 0, fun _ => (0, 0), fun _ => 0⟩

/-- A two-operand solver reporting not done. -/
def ndTwo : ExtTwo := ⟨false, 0, fun _ => 0, fun _ => (0, 0), false⟩

/-- The default part used by positional getD in list characterizations. -/
def defaultPart : Part := ⟨0, 0, false, 0, false⟩

/-- The index-based specification of one discovery group, following the
spec wording: for outer index i, the candidates are the parts at
strictly larger indices whose reference curve intersects the one of part
i, and index i yields a group exactly when that candidate list is
non-empty. -/
def crefGroupSpec (K : Kernel) (tol : Option ℚ) (l : List Part) (i : Nat) :
    Option (Part × List Part) :=
  if ((l.drop (i + 1)).filter
      (fun other => crefPairIntersects K tol (l.getD i defaultPart) other)).isEmpty
  then none
  else some (l.getD i defaultPart,
    (l.drop (i + 1)).filter
      (fun other => crefPairIntersects K tol (l.getD i defaultPart) other))

/-- A surface part with a reference curve: identity 0, shape 10,
reference curve 100. -/
def pA : Part := ⟨0, 10, true, 100, true⟩

/-- A surface part with a reference curve: identity 1, shape 11,
reference curve 101. -/
def pB : Part := ⟨1, 11, true, 101, true⟩

/-- A surface part with a reference curve: identity 2, shape 12,
reference curve 102. -/
def pC : Part := ⟨2, 12, true, 102, true⟩

/-- The part pB after the sewing witness rewrites its shape. -/
def pB61 : Part := ⟨1, 61, true, 101, true⟩

/-- The sew report of the witness kernel: only shape 11 is modified, a
modified shape is shifted by 50. -/
def wSew : SewReport := ⟨fun s => s == 11, fun s => s + 50⟩

/-- A concrete benign kernel: the reference-curve edges of pA and pB
intersect in one vertex, no other pair intersects, every shape tolerance
is 1, the cut of a part succeeds exactly for identity 0, and sewing
modifies exactly shape 11. -/
def Kw : Kernel :=
  { fuseShapes := fun _ _ _ => ⟨true, 500, fun _ => none⟩,
    splitShapes := fun _ _ _ => ⟨true, 600, fun _ => none⟩,
    compound := fun l => 1000 + l.length,
    globalTolerance := fun _ _ => 1,
    edgeByCurve := fun c => c,
    intersectVertices := fun e1 e2 _ => if e1 == 100 && e2 == 101 then [7] else [],
    toShape := fun s => s,
    cutPart := fun p _ => (p.pid == 0, p),
    sewShape := fun _ _ _ _ _ => wSew }

/-- A kernel whose Boolean primitives report not done while their
modification map still replaces shape 0, exposing that the orchestrator
rewrites part shapes without checking is_done. -/
def K0 : Kernel :=
  { fuseShapes := fun _ _ _ => ⟨false, 99, fun s => if s = 0 then some [1] else none⟩,
    splitShapes := fun _ _ _ => ⟨false, 98, fun s => if s = 0 then some [2] else none⟩,
    compound := fun l => 1000 + l.length,
    globalTolerance := fun _ _ => 0,
    edgeByCurve := fun c => c,
    intersectVertices := fun _ _ _ => [],
    toShape := fun s => s,
    cutPart := fun p _ => (true, p),
    sewShape := fun _ _ _ _ _ => ⟨fun _ => false, fun s => s⟩ }

/-- A part with identity 0 and shape 0, no reference curve. -/
def p0 : Part := ⟨0, 0, false, 0, true⟩

/-- The part p0 after the not-done fuse of K0 rewrote its shape to 1. -/
def p0AfterFuse : Part := ⟨0, 1, false, 0, true⟩

/-- The part p0 after the not-done split of K0 rewrote its shape to 2. -/
def p0AfterSplit : Part := ⟨0, 2, false, 0, true⟩

/-- An assembly holding the single part p0. -/
def asmA : Assembly := ⟨fun _ => [p0]⟩

/-- An assembly holding no parts. -/
def asmB : Assembly := ⟨fun _ => []⟩

/-! ## Helper lemmas about the stable distance sort and the shared
report block -/

theorem mem_insertByDist {α : Type} (x y : ℝ × α) :
    ∀ l : List (ℝ × α), y ∈ insertByDist x l ↔ y = x ∨ y ∈ l := by
  intro l
  induction l with
  | nil => simp [insertByDist]
  | cons z zs ih =>
    simp only [insertByDist]
    by_cases h : x.1 ≤ z.1
    · rw [if_pos h]
      simp [List.mem_cons]
    · rw [if_neg h]
      simp only [List.mem_cons, ih]
      tauto

theorem length_insertByDist {α : Type} (x : ℝ × α) :
    ∀ l : List (ℝ × α), (insertByDist x l).length = l.length + 1 := by
  intro l
  induction l with
  | nil => simp [insertByDist]
  | cons z zs ih =>
    simp only [insertByDist]
    by_cases h : x.1 ≤ z.1
    · rw [if_pos h]; simp
    · rw [if_neg h]; simp [ih]

theorem length_sortByDist {α : Type} :
    ∀ l : List (ℝ × α), (sortByDist l).length = l.length := by
  intro l
  induction l with
  | nil => rfl
  | cons x xs ih => simp [sortByDist, length_insertByDist, ih]

theorem pairwise_insertByDist {α : Type} (x : ℝ × α) :
    ∀ l : List (ℝ × α), l.Pairwise (fun a b => a.1 ≤ b.1) →
      (insertByDist x l).Pairwise (fun a b => a.1 ≤ b.1) := by
  intro l
  induction l with
  | nil => intro _; simp [insertByDist]
  | cons y ys ih =>
    intro h
    rcases List.pairwise_cons.mp h with ⟨hy, hys⟩
    simp only [insertByDist]
    by_cases hxy : x.1 ≤ y.1
    · rw [if_pos hxy]
      refine List.pairwise_cons.mpr ⟨?_, h⟩
      intro b hb
      rcases List.mem_cons.mp hb with rfl | hb'
      · exact hxy
      · exact le_trans hxy (hy b hb')
    · rw [if_neg hxy]
      refine List.pairwise_cons.mpr ⟨?_, ih hys⟩
      intro b hb
      rcases (mem_insertByDist x b ys).mp hb with rfl | hb'
      · exact le_of_not_le hxy
      · exact hy b hb'

theorem pairwise_sortByDist {α : Type} :
    ∀ l : List (ℝ × α), (sortByDist l).Pairwise (fun a b => a.1 ≤ b.1) := by
  intro l
  induction l with
  | nil => simp [sortByDist]
  | cons x xs ih => exact pairwise_insertByDist x _ ih

theorem sortByDist_eq_nil_iff {α : Type} (l : List (ℝ × α)) :
    sortByDist l = [] ↔ l = [] := by
  constructor
  · intro h
    have hl := length_sortByDist l
    rw [h] at hl
    exact List.length_eq_zero.mp hl.symm
  · intro h; rw [h]; rfl

theorem getLast?_map_fst {α : Type} :
    ∀ (rest : List (ℝ × α)) (r0 : ℝ × α),
      ((r0 :: rest).map (fun r => r.1)).getLast? = some ((rest.getLastD r0).1) := by
  intro rest
  induction rest with
  | nil => intro r0; rfl
  | cons y ys ih =>
    intro r0
    rw [List.map_cons, List.map_cons, List.getLast?_cons_cons, ← List.map_cons,
      ih y, List.getLastD_cons]

theorem buildReport_spec {α : Type} (rows : List (ℝ × α)) (h : rows ≠ []) :
    ∃ dmin dmax sorted, buildReport rows = some (dmin, dmax, sorted) ∧
      sorted ≠ [] ∧
      List.Sorted (· ≤ ·) (sorted.map (fun r => r.1)) ∧
      (sorted.map (fun r => r.1)).head? = some dmin ∧
      (sorted.map (fun r => r.1)).getLast? = some dmax := by
  cases hs : sortByDist rows with
  | nil => exact absurd ((sortByDist_eq_nil_iff rows).mp hs) h
  | cons r0 rest =>
    refine ⟨r0.1, (rest.getLastD r0).1, r0 :: rest, ?_, by simp, ?_, by simp,
      getLast?_map_fst rest r0⟩
    · unfold buildReport
      rw [hs]
    · have hp := pairwise_sortByDist rows
      rw [hs] at hp
      exact List.pairwise_map.mpr hp

theorem extremaCore_ok {α : Type} (msg : String) (n : Nat) (sq : Nat → ℚ)
    (payload : Nat → α) (hn : 1 ≤ n) :
    ∃ rep, extremaCore msg true n sq payload = .ok rep ∧
      SortedDistOk rep.dmin rep.dmax rep.distances := by
  unfold extremaCore
  rw [if_neg (by simp)]
  have hlen : ((List.range n).map
      (fun k => (Real.sqrt ((sq (k + 1) : ℚ) : ℝ), payload (k + 1)))).length = n := by
    simp
  have hne : ((List.range n).map
      (fun k => (Real.sqrt ((sq (k + 1) : ℚ) : ℝ), payload (k + 1)))) ≠ [] := by
    intro h0
    rw [h0] at hlen
    simp at hlen
    omega
  obtain ⟨dmin, dmax, sorted, hbr, hne', hsort, hhead, hlast⟩ :=
    buildReport_spec _ hne
  rw [hbr]
  refine ⟨_, rfl, ?_, hsort, hhead, hlast⟩
  simpa using hne'

theorem extremaCore_notDone {α : Type} (msg : String) (n : Nat) (sq : Nat → ℚ)
    (payload : Nat → α) :
    extremaCore msg false n sq payload = .error (.runtimeError msg) := rfl

theorem extremaCore_zero {α : Type} (msg : String) (sq : Nat → ℚ)
    (payload : Nat → α) :
    extremaCore msg true 0 sq payload = .error .indexError := rfl

/-! ## Claims about the Extrema Engine -/

/-- C1: for every extrema call of any of the five operand-pair kinds in
which the solver reports done with at least one solution, the report
distance list is non-empty and sorted ascending, and dmin equals its
first element while dmax equals its last element. -/
theorem extrema_reports_sorted :
    (∀ (s : ExtPC) (tp : Nat → Nat), s.isDone = true → 1 ≤ s.nbExt →
      ∃ rep, DistancePointToCurve s tp = .ok rep ∧
        SortedDistOk rep.dmin rep.dmax rep.distances) ∧
    (∀ (s : ExtPS) (tp : Nat → Nat), s.isDone = true → 1 ≤ s.nbExt →
      ∃ rep, DistancePointToSurface s tp = .ok rep ∧
        SortedDistOk rep.dmin rep.dmax rep.distances) ∧
    (∀ (s : ExtTwo) (tp : Nat → Nat), s.isDone = true → 1 ≤ s.nbExt →
      ∃ rep, DistanceCurveToCurve s tp = .ok (rep, s.isParallel) ∧
        SortedDistOk rep.dmin rep.dmax rep.distances) ∧
    (∀ (s : ExtTwo) (tp : Nat → Nat), s.isDone = true → 1 ≤ s.nbExt →
      ∃ rep, DistanceCurveToSurface s tp = .ok (rep, s.isParallel) ∧
        SortedDistOk rep.dmin rep.dmax rep.distances) ∧
    (∀ (s : ExtTwo) (tp : Nat → Nat), s.isDone = true → 1 ≤ s.nbExt →
      ∃ rep, DistanceSurfaceToSurface s tp = .ok (rep, s.isParallel) ∧
        SortedDistOk rep.dmin rep.dmax rep.distances) := by
  refine ⟨?_, ?_, ?_, ?_, ?_⟩ <;> intro s tp h1 h2
  · obtain ⟨rep, hok, hs⟩ := extremaCore_ok
      "Extrema between point and curve failed." s.nbExt s.squareDistance
      (fun i => (s.parameter i, tp (s.point i))) h2
    exact ⟨rep, by rw [DistancePointToCurve, h1, hok], hs⟩
  · obtain ⟨rep, hok, hs⟩ := extremaCore_ok
      "Extrema between point and surface failed." s.nbExt s.squareDistance
      (fun i => (s.parameter i, tp (s.point i))) h2
    exact ⟨rep, by rw [DistancePointToSurface, h1, hok], hs⟩
  · obtain ⟨rep, hok, hs⟩ := extremaCore_ok
      "Extrema between two curves failed." s.nbExt s.squareDistance
      (fun i => (tp (s.points i).1, tp (s.points i).2)) h2
    exact ⟨rep, by rw [DistanceCurveToCurve, h1, hok]; rfl, hs⟩
  · obtain ⟨rep, hok, hs⟩ := extremaCore_ok
      "Extrema between curve and surface failed." s.nbExt s.squareDistance
      (fun i => (tp (s.points i).1, tp (s.points i).2)) h2
    exact ⟨rep, by rw [DistanceCurveToSurface, h1, hok]; rfl, hs⟩
  · obtain ⟨rep, hok, hs⟩ := extremaCore_ok
      "Extrema between curve and surface failed." s.nbExt s.squareDistance
      (fun i => (tp (s.points i).1, tp (s.points i).2)) h2
    exact ⟨rep, by rw [DistanceSurfaceToSurface, h1, hok]; rfl, hs⟩

/-- Witness for C1: concrete done solvers with one or two solutions, one
per operand-pair kind. -/
theorem extrema_reports_sorted_witness :
    wPC.isDone = true ∧ 1 ≤ wPC.nbExt ∧
    wPS.isDone = true ∧ 1 ≤ wPS.nbExt ∧
    wTwo.isDone = true ∧ 1 ≤ wTwo.nbExt ∧
    (∃ rep, DistancePointToCurve wPC (fun i => i) = .ok rep ∧
      SortedDistOk rep.dmin rep.dmax rep.distances) ∧
    (∃ rep, DistancePointToSurface wPS (fun i => i) = .ok rep ∧
      SortedDistOk rep.dmin rep.dmax rep.distances) ∧
    (∃ rep, DistanceCurveToCurve wTwo (fun i => i) = .ok (rep, wTwo.isParallel) ∧
      SortedDistOk rep.dmin rep.dmax rep.distances) ∧
    (∃ rep, DistanceCurveToSurface wTwo (fun i => i) = .ok (rep, wTwo.isParallel) ∧
      SortedDistOk rep.dmin rep.dmax rep.distances) ∧
    (∃ rep, DistanceSurfaceToSurface wTwo (fun i => i) = .ok (rep, wTwo.isParallel) ∧
      SortedDistOk rep.dmin rep.dmax rep.distances) :=
  ⟨rfl, by decide, rfl, by decide, rfl, by decide,
   extrema_reports_sorted.1 wPC (fun i => i) rfl (by decide),
   extrema_reports_sorted.2.1 wPS (fun i => i) rfl (by decide),
   extrema_reports_sorted.2.2.1 wTwo (fun i => i) rfl (by decide),
   extrema_reports_sorted.2.2.2.1 wTwo (fun i => i) rfl (by decide),
   extrema_reports_sorted.2.2.2.2 wTwo (fun i => i) rfl (by decide)⟩

/-- C4 counterexample: a point-to-curve solver that reports done with
zero solutions makes the call fail with IndexError, which is not the
named geometry-computation failure raised for a not-done report. -/
theorem zero_solutions_not_named_failure_cex :
    DistancePointToCurve zPC (fun i => i) = .error .indexError ∧
    PyError.indexError ≠
      PyError.runtimeError "Extrema between point and curve failed." :=
  ⟨rfl, by decide⟩

/-- C4 as amended: for every extrema call of any of the five operand-pair
kinds in which the solver reports done but enumerates zero solutions,
the call fails — no empty report is produced — but with an
index-out-of-range error from reading the first sorted result, not with
the named geometry-computation failure of a not-done report. -/
theorem zero_solutions_fail_with_index_error :
    (∀ (s : ExtPC) (tp : Nat → Nat), s.isDone = true → s.nbExt = 0 →
      DistancePointToCurve s tp = .error .indexError) ∧
    (∀ (s : ExtPS) (tp : Nat → Nat), s.isDone = true → s.nbExt = 0 →
      DistancePointToSurface s tp = .error .indexError) ∧
    (∀ (s : ExtTwo) (tp : Nat → Nat), s.isDone = true → s.nbExt = 0 →
      DistanceCurveToCurve s tp = .error .indexError) ∧
    (∀ (s : ExtTwo) (tp : Nat → Nat), s.isDone = true → s.nbExt = 0 →
      DistanceCurveToSurface s tp = .error .indexError) ∧
    (∀ (s : ExtTwo) (tp : Nat → Nat), s.isDone = true → s.nbExt = 0 →
      DistanceSurfaceToSurface s tp = .error .indexError) := by
  refine ⟨?_, ?_, ?_, ?_, ?_⟩ <;> intro s tp h1 h2
  · rw [DistancePointToCurve, h1, h2, extremaCore_zero]
  · rw [DistancePointToSurface, h1, h2, extremaCore_zero]
  · rw [DistanceCurveToCurve, h1, h2, extremaCore_zero]; rfl
  · rw [DistanceCurveToSurface, h1, h2, extremaCore_zero]; rfl
  · rw [DistanceSurfaceToSurface, h1, h2, extremaCore_zero]; rfl

/-- Witness for the amended C4: concrete done solvers enumerating zero
solutions, one per operand-pair kind. -/
theorem zero_solutions_fail_with_index_error_witness :
    zPC.isDone = true ∧ zPC.nbExt = 0 ∧
    zPS.isDone = true ∧ zPS.nbExt = 0 ∧
    zTwo.isDone = true ∧ zTwo.nbExt = 0 ∧
    DistancePointToCurve zPC (fun i => i) = .error .indexError ∧
    DistancePointToSurface zPS (fun i => i) = .error .indexError ∧
    DistanceCurveToCurve zTwo (fun i => i) = .error .indexError ∧
    DistanceCurveToSurface zTwo (fun i => i) = .error .indexError ∧
    DistanceSurfaceToSurface zTwo (fun i => i) = .error .indexError :=
  ⟨rfl, rfl, rfl, rfl, rfl, rfl,
   zero_solutions_fail_with_index_error.1 zPC (fun i => i) rfl rfl,
   zero_solutions_fail_with_index_error.2.1 zPS (fun i => i) rfl rfl,
   zero_solutions_fail_with_index_error.2.2.1 zTwo (fun i => i) rfl rfl,
   zero_solutions_fail_with_index_error.2.2.2.1 zTwo (fun i => i) rfl rfl,
   zero_solutions_fail_with_index_error.2.2.2.2 zTwo (fun i => i) rfl rfl⟩

/-- C5: on a not-done solver report every call fails with a RuntimeError
and produces no report, and four of the five messages name the
operand-pair kind of the call; but the surface-to-surface message is the
string of the curve-to-surface kind, so the surface/surface call does
not name its own operand-pair kind. -/
theorem not_done_error_messages :
    DistanceSurfaceToSurface ndTwo (fun i => i) =
      .error (.runtimeError "Extrema between curve and surface failed.") ∧
    DistanceCurveToSurface ndTwo (fun i => i) =
      .error (.runtimeError "Extrema between curve and surface failed.") ∧
    DistancePointToCurve ndPC (fun i => i) =
      .error (.runtimeError "Extrema between point and curve failed.") ∧
    DistancePointToSurface ndPS (fun i => i) =
      .error (.runtimeError "Extrema between point and surface failed.") ∧
    DistanceCurveToCurve ndTwo (fun i => i) =
      .error (.runtimeError "Extrema between two curves failed.") :=
  ⟨rfl, rfl, rfl, rfl, rfl⟩

/-! ## Helper lemmas about the orchestrator loops -/

theorem mapE_ok {α β : Type} (f : α → Except PyError β) :
    ∀ (l : List α) (r : List β), mapE f l = .ok r →
      r.length = l.length ∧
      ∀ i (h1 : i < l.length) (h2 : i < r.length),
        f (l.get ⟨i, h1⟩) = .ok (r.get ⟨i, h2⟩) := by
  intro l
  induction l with
  | nil =>
    intro r h
    simp only [mapE] at h
    cases h
    exact ⟨rfl, fun i h1 => absurd h1 (by simp)⟩
  | cons x xs ih =>
    intro r h
    simp only [mapE] at h
    cases hfx : f x with
    | error e => rw [hfx] at h; cases h
    | ok y =>
      rw [hfx] at h
      cases hxs : mapE f xs with
      | error e => rw [hxs] at h; cases h
      | ok ys =>
        rw [hxs] at h
        cases h
        obtain ⟨hlen, hget⟩ := ih ys hxs
        refine ⟨by simp [hlen], ?_⟩
        intro i h1 h2
        cases i with
        | zero => exact hfx
        | succ n =>
          exact hget n (by simpa using h1) (by simpa using h2)

theorem lookup_none_of_not_mem_keys :
    ∀ (l : List (Nat × Bool)) (a : Nat),
      a ∉ l.map (fun e => e.1) → List.lookup a l = none := by
  intro l
  induction l with
  | nil => intro a _; rfl
  | cons e es ih =>
    intro a ha
    obtain ⟨k, b⟩ := e
    simp only [List.map_cons, List.mem_cons] at ha
    push_neg at ha
    simp only [List.lookup]
    have hbeq : (a == k) = false := by simpa using ha.1
    rw [hbeq]
    exact ih a ha.2

theorem lookup_some_of_mem_keys :
    ∀ (l : List (Nat × Bool)) (a : Nat),
      a ∈ l.map (fun e => e.1) → ∃ b, List.lookup a l = some b := by
  intro l
  induction l with
  | nil => intro a ha; simp at ha
  | cons e es ih =>
    intro a ha
    obtain ⟨k, b⟩ := e
    simp only [List.lookup]
    by_cases hk : a = k
    · have hbeq : (a == k) = true := by simpa using hk
      rw [hbeq]
      exact ⟨b, rfl⟩
    · have hbeq : (a == k) = false := by simpa using hk
      rw [hbeq]
      simp only [List.map_cons, List.mem_cons] at ha
      rcases ha with h | h
      · exact absurd h hk
      · exact ih a h

theorem crefGroupsAux_eq_filterMap (K : Kernel) (tol : Option ℚ) :
    ∀ l : List Part,
      crefGroupsAux K tol l =
        (List.range l.length).filterMap (crefGroupSpec K tol l) := by
  intro l
  induction l with
  | nil => rfl
  | cons main rest ih =>
    have hshift : (crefGroupSpec K tol (main :: rest)) ∘ (fun i => i + 1) =
        crefGroupSpec K tol rest := by
      funext i
      simp only [Function.comp_apply, crefGroupSpec, List.getD_cons_succ,
        List.drop_succ_cons]
    have h0 : crefGroupSpec K tol (main :: rest) 0 =
        (if (rest.filter
              (fun other => crefPairIntersects K tol main other)).isEmpty
         then none
         else some (main,
           rest.filter (fun other => crefPairIntersects K tol main other))) := by
      simp only [crefGroupSpec, List.getD_cons_zero, List.drop_succ_cons,
        List.drop_zero]
    simp only [crefGroupsAux, List.length_cons]
    rw [List.range_succ_eq_map, List.filterMap_cons, List.filterMap_map, hshift,
      ← ih, h0]
    by_cases hE : (rest.filter
        (fun other => crefPairIntersects K tol main other)).isEmpty
    · simp [hE]
    · simp [hE]

theorem rebuildLoop_ok (K : Kernel) (bop : BopReport) (l res : List Part)
    (h : mapE (fun p => (rebuildNewShape K bop p.shape).map
        (fun ns => { p with shape := ns })) l = .ok res) :
    res.length = l.length ∧
    ∀ i (h1 : i < l.length) (h2 : i < res.length),
      rebuildNewShape K bop ((l.get ⟨i, h1⟩).shape) = .ok ((res.get ⟨i, h2⟩).shape) ∧
      res.get ⟨i, h2⟩ = { l.get ⟨i, h1⟩ with shape := (res.get ⟨i, h2⟩).shape } := by
  obtain ⟨hlen, hget⟩ := mapE_ok _ l res h
  refine ⟨hlen, ?_⟩
  intro i h1 h2
  have hi := hget i h1 h2
  cases hr : rebuildNewShape K bop ((l.get ⟨i, h1⟩).shape) with
  | error e =>
    rw [hr] at hi
    simp only [Except.map] at hi
    cases hi
  | ok ns =>
    rw [hr] at hi
    simp only [Except.map] at hi
    injection hi with hi
    constructor
    · rw [← hi]
    · rw [← hi]

/-! ## Claims about the orchestrator -/

/-- C2 counterexample: with a fuse primitive whose report has is_done
false but whose modification map replaces shape 0 by shape 1,
FuseSurfaceParts still rewrites the input part shape from 0 to 1: the
shape attribute is modified although the primitive did not succeed. -/
theorem fuse_mutates_when_not_done_cex :
    FuseSurfaceParts K0 [p0] [] none = .ok ([p0AfterFuse], false, 99) ∧
    p0AfterFuse.shape ≠ p0.shape :=
  ⟨rfl, by decide⟩

/-- C2 as amended: in FuseSurfaceParts, SplitParts and FuseAssemblies
every input part shape is rewritten in place to the rebuild-resolver
output for its original shape whether or not the primitive reports
is_done — the recorded is_done flag is stored but never gates the
mutation — and the rewrite changes nothing of a part but its shape. -/
theorem parts_rewritten_regardless_of_done :
    (∀ (K : Kernel) (parts tools : List Part) (fuzzy : Option ℚ)
        (res : List Part) (done : Bool) (fshape : Shape),
      FuseSurfaceParts K parts tools fuzzy = .ok (res, done, fshape) →
      res.length = (parts ++ tools).length ∧
      done = (K.fuseShapes (parts.map (fun p => p.shape))
        (tools.map (fun p => p.shape)) fuzzy).isDone ∧
      ∀ i (h1 : i < (parts ++ tools).length) (h2 : i < res.length),
        rebuildNewShape K (K.fuseShapes (parts.map (fun p => p.shape))
            (tools.map (fun p => p.shape)) fuzzy)
            (((parts ++ tools).get ⟨i, h1⟩).shape) =
          .ok ((res.get ⟨i, h2⟩).shape) ∧
        res.get ⟨i, h2⟩ =
          { (parts ++ tools).get ⟨i, h1⟩ with shape := (res.get ⟨i, h2⟩).shape }) ∧
    (∀ (K : Kernel) (parts : List Part) (tools : Option (List Part))
        (fuzzy : Option ℚ) (res : List Part) (done : Bool) (sshape : Shape),
      SplitParts K parts tools fuzzy = .ok (res, done, sshape) →
      res.length = parts.length ∧
      done = (K.splitShapes (parts.map (fun p => p.shape))
        (match tools with
         | none => []
         | some ts => ts.map (fun p => p.shape)) fuzzy).isDone ∧
      ∀ i (h1 : i < parts.length) (h2 : i < res.length),
        rebuildNewShape K (K.splitShapes (parts.map (fun p => p.shape))
            (match tools with
             | none => []
             | some ts => ts.map (fun p => p.shape)) fuzzy)
            ((parts.get ⟨i, h1⟩).shape) =
          .ok ((res.get ⟨i, h2⟩).shape) ∧
        res.get ⟨i, h2⟩ =
          { parts.get ⟨i, h1⟩ with shape := (res.get ⟨i, h2⟩).shape }) ∧
    (∀ (K : Kernel) (assys : List Assembly) (fuzzy : Option ℚ) (inc : Bool)
        (res : List Part) (done : Bool) (fshape : Shape),
      FuseAssemblies K assys fuzzy inc = .ok (res, done, fshape) →
      res.length = ((assys.headD emptyAssembly).get_parts inc ++
        (assys.tail.map (fun a => a.get_parts inc)).flatten).length ∧
      done = (K.fuseShapes
        [K.compound (((assys.headD emptyAssembly).get_parts inc).map
          (fun p => p.shape))]
        (assys.tail.map (fun a =>
          K.compound ((a.get_parts inc).map (fun p => p.shape)))) fuzzy).isDone ∧
      ∀ i (h1 : i < ((assys.headD emptyAssembly).get_parts inc ++
            (assys.tail.map (fun a => a.get_parts inc)).flatten).length)
          (h2 : i < res.length),
        rebuildNewShape K (K.fuseShapes
            [K.compound (((assys.headD emptyAssembly).get_parts inc).map
              (fun p => p.shape))]
            (assys.tail.map (fun a =>
              K.compound ((a.get_parts inc).map (fun p => p.shape)))) fuzzy)
            ((((assys.headD emptyAssembly).get_parts inc ++
              (assys.tail.map (fun a => a.get_parts inc)).flatten).get
                ⟨i, h1⟩).shape) =
          .ok ((res.get ⟨i, h2⟩).shape) ∧
        res.get ⟨i, h2⟩ =
          { ((assys.headD emptyAssembly).get_parts inc ++
              (assys.tail.map (fun a => a.get_parts inc)).flatten).get ⟨i, h1⟩ with
            shape := (res.get ⟨i, h2⟩).shape }) := by
  refine ⟨?_, ?_, ?_⟩
  · intro K parts tools fuzzy res done fshape h
    simp only [FuseSurfaceParts] at h
    cases hm : mapE (fun p => (rebuildNewShape K
        (K.fuseShapes (parts.map (fun p => p.shape))
          (tools.map (fun p => p.shape)) fuzzy) p.shape).map
        (fun ns => { p with shape := ns })) (parts ++ tools) with
    | error e =>
      rw [hm] at h
      simp only [Except.map] at h
      cases h
    | ok newParts =>
      rw [hm] at h
      simp only [Except.map] at h
      injection h with h
      injection h with hres h
      injection h with hdone hshape
      obtain ⟨hlen, hget⟩ := rebuildLoop_ok K _ _ _ hm
      subst hres
      exact ⟨hlen, hdone.symm, hget⟩
  · intro K parts tools fuzzy res done sshape h
    simp only [SplitParts] at h
    cases hm : mapE (fun p => (rebuildNewShape K
        (K.splitShapes (parts.map (fun p => p.shape))
          (match tools with
           | none => []
           | some ts => ts.map (fun p => p.shape)) fuzzy) p.shape).map
        (fun ns => { p with shape := ns })) parts with
    | error e =>
      rw [hm] at h
      simp only [Except.map] at h
      cases h
    | ok newParts =>
      rw [hm] at h
      simp only [Except.map] at h
      injection h with h
      injection h with hres h
      injection h with hdone hshape
      obtain ⟨hlen, hget⟩ := rebuildLoop_ok K _ _ _ hm
      subst hres
      exact ⟨hlen, hdone.symm, hget⟩
  · intro K assys fuzzy inc res done fshape h
    by_cases hl : assys.length < 2
    · rw [FuseAssemblies, if_pos hl] at h
      cases h
    · simp only [FuseAssemblies] at h
      rw [if_neg hl] at h
      cases hm : mapE (fun p => (rebuildNewShape K (K.fuseShapes
          [K.compound (((assys.headD emptyAssembly).get_parts inc).map
            (fun p => p.shape))]
          (assys.tail.map (fun a =>
            K.compound ((a.get_parts inc).map (fun p => p.shape)))) fuzzy)
          p.shape).map (fun ns => { p with shape := ns }))
          ((assys.headD emptyAssembly).get_parts inc ++
            (assys.tail.map (fun a => a.get_parts inc)).flatten) with
      | error e =>
        rw [hm] at h
        simp only [Except.map] at h
        cases h
      | ok newParts =>
        rw [hm] at h
        simp only [Except.map] at h
        injection h with h
        injection h with hres h
        injection h with hdone hshape
        obtain ⟨hlen, hget⟩ := rebuildLoop_ok K _ _ _ hm
        subst hres
        exact ⟨hlen, hdone.symm, hget⟩

/-- Witness for the amended C2: the concrete not-done fuse, split and
assembly fuse of K0, all of which still rewrite the shape of p0. -/
theorem parts_rewritten_regardless_of_done_witness :
    FuseSurfaceParts K0 [p0] [] none = .ok ([p0AfterFuse], false, 99) ∧
    ([p0AfterFuse] : List Part).length = (([p0] : List Part) ++ []).length ∧
    SplitParts K0 [p0] none none = .ok ([p0AfterSplit], false, 98) ∧
    ([p0AfterSplit] : List Part).length = ([p0] : List Part).length ∧
    FuseAssemblies K0 [asmA, asmB] none true = .ok ([p0AfterFuse], false, 99) ∧
    ([p0AfterFuse] : List Part).length =
      ((([asmA, asmB] : List Assembly).headD emptyAssembly).get_parts true ++
        (([asmA, asmB] : List Assembly).tail.map
          (fun a => a.get_parts true)).flatten).length :=
  ⟨rfl,
   (parts_rewritten_regardless_of_done.1 K0 [p0] [] none [p0AfterFuse] false 99 rfl).1,
   rfl,
   (parts_rewritten_regardless_of_done.2.1 K0 [p0] none none [p0AfterSplit] false 98 rfl).1,
   rfl,
   (parts_rewritten_regardless_of_done.2.2 K0 [asmA, asmB] none true [p0AfterFuse] false 99 rfl).1⟩

/-- C3: each part of a cut-parts call is cut independently, with its
success boolean recorded in the outcome map: the outcome keys are
exactly the input part identities in order, each input part has an entry
holding the boolean its own cut returned, every part keeps an entry
after the loop finishes, and querying was_cut for a part absent from the
input raises KeyError instead of answering. -/
theorem cut_parts_outcome_map :
    ∀ (K : Kernel) (parts : List Part) (shape : Shape),
      ((CutParts K parts shape).2.map (fun e => e.1) =
        parts.map (fun p => p.pid)) ∧
      ((CutParts K parts shape).1.length = parts.length) ∧
      (∀ p ∈ parts,
        (p.pid, (K.cutPart p (K.toShape shape)).1) ∈ (CutParts K parts shape).2) ∧
      (∀ p ∈ parts, ∃ b, was_cut (CutParts K parts shape).2 p = .ok b) ∧
      (∀ q : Part, q.pid ∉ parts.map (fun p => p.pid) →
        was_cut (CutParts K parts shape).2 q = .error .keyError) := by
  intro K parts shape
  have hkeys : (CutParts K parts shape).2.map (fun e => e.1) =
      parts.map (fun p => p.pid) := by
    simp [CutParts]
  refine ⟨hkeys, by simp [CutParts], ?_, ?_, ?_⟩
  · intro p hp
    exact List.mem_map_of_mem _ hp
  · intro p hp
    have hmem : p.pid ∈ (CutParts K parts shape).2.map (fun e => e.1) := by
      rw [hkeys]
      exact List.mem_map_of_mem _ hp
    obtain ⟨b, hb⟩ := lookup_some_of_mem_keys _ _ hmem
    exact ⟨b, by simp only [was_cut, hb]⟩
  · intro q hq
    have hq' : q.pid ∉ (CutParts K parts shape).2.map (fun e => e.1) := by
      rw [hkeys]
      exact hq
    simp only [was_cut, lookup_none_of_not_mem_keys _ _ hq']

/-- Witness for C3: cutting parts pA and pB with the witness kernel,
whose cut succeeds only for identity 0, so the failure on pB is recorded
while pA is still processed; the absent part pC raises KeyError. -/
theorem cut_parts_outcome_map_witness :
    pC.pid ∉ ([pA, pB] : List Part).map (fun p => p.pid) ∧
    was_cut (CutParts Kw [pA, pB] 3).2 pC = .error .keyError ∧
    (∃ b, was_cut (CutParts Kw [pA, pB] 3).2 pB = .ok b) ∧
    (pB.pid, (Kw.cutPart pB (Kw.toShape 3)).1) ∈ (CutParts Kw [pA, pB] 3).2 :=
  ⟨by decide,
   (cut_parts_outcome_map Kw [pA, pB] 3).2.2.2.2 pC (by decide),
   (cut_parts_outcome_map Kw [pA, pB] 3).2.2.2.1 pB (by decide),
   (cut_parts_outcome_map Kw [pA, pB] 3).2.2.1 pB (by decide)⟩

/-- C6: adjacency discovery enumerates exactly the index pairs with
outer index strictly below inner index (the groups equal the index-based
filterMap characterization), skips a pair when either part lacks a
reference curve, records a candidate exactly when the edge intersection
yields at least one vertex, and reports is_done exactly when some main
part accumulated a non-empty candidate group; for three surface parts
where only the first two reference curves intersect, the result is the
single group (A, [B]) with is_done true, and C is in no group. -/
theorem cref_adjacency_discovery :
    ∀ (K : Kernel) (tol : Option ℚ),
      (∀ parts : List Part, (∀ p ∈ parts, p.isSurface = true) →
        ∃ groups done,
          FuseSurfacePartsByCref K parts tol = .ok (groups, done) ∧
          ((done = true) ↔ groups ≠ []) ∧
          groups = (List.range parts.length).filterMap (crefGroupSpec K tol parts)) ∧
      (∀ main other : Part,
        main.has_cref = false ∨ other.has_cref = false →
        crefPairIntersects K tol main other = false) ∧
      (∀ main other : Part, main.has_cref = true → other.has_cref = true →
        (crefPairIntersects K tol main other = true ↔
          K.intersectVertices (K.edgeByCurve main.cref) (K.edgeByCurve other.cref)
            (match tol with
             | none => max (K.globalTolerance main.shape 1)
                 (K.globalTolerance other.shape 1)
             | some v => v) ≠ [])) ∧
      (∀ A B C : Part,
        A.isSurface = true → B.isSurface = true → C.isSurface = true →
        crefPairIntersects K tol A B = true →
        crefPairIntersects K tol A C = false →
        crefPairIntersects K tol B C = false →
        FuseSurfacePartsByCref K [A, B, C] tol = .ok ([(A, [B])], true)) := by
  intro K tol
  refine ⟨?_, ?_, ?_, ?_⟩
  · intro parts hsurf
    have hall : parts.all (fun p => p.isSurface) = true := by
      rw [List.all_eq_true]
      exact hsurf
    refine ⟨crefGroupsAux K tol parts, !(crefGroupsAux K tol parts).isEmpty,
      ?_, ?_, crefGroupsAux_eq_filterMap K tol parts⟩
    · rw [FuseSurfacePartsByCref, if_pos hall]
    · simp [List.isEmpty_iff]
  · intro main other h
    rcases h with h | h <;> simp [crefPairIntersects, h]
  · intro main other h1 h2
    simp [crefPairIntersects, h1, h2, List.isEmpty_iff]
  · intro A B C hA hB hC hAB hAC hBC
    rw [FuseSurfacePartsByCref, if_pos (by simp [hA, hB, hC])]
    simp [crefGroupsAux, List.filter_cons, hAB, hAC, hBC]

/-- Witness for C6: the witness kernel intersects only the reference
curves of pA and pB, so discovery over pA, pB, pC yields the single
group (pA, [pB]). -/
theorem cref_adjacency_discovery_witness :
    (∀ p ∈ ([pA, pB, pC] : List Part), p.isSurface = true) ∧
    pA.isSurface = true ∧ pB.isSurface = true ∧ pC.isSurface = true ∧
    crefPairIntersects Kw none pA pB = true ∧
    crefPairIntersects Kw none pA pC = false ∧
    crefPairIntersects Kw none pB pC = false ∧
    (∃ groups done,
      FuseSurfacePartsByCref Kw [pA, pB, pC] none = .ok (groups, done) ∧
      ((done = true) ↔ groups ≠ []) ∧
      groups = (List.range ([pA, pB, pC] : List Part).length).filterMap
        (crefGroupSpec Kw none [pA, pB, pC])) ∧
    FuseSurfacePartsByCref Kw [pA, pB, pC] none = .ok ([(pA, [pB])], true) :=
  ⟨by decide, rfl, rfl, rfl, by rfl, by rfl, by rfl,
   (cref_adjacency_discovery Kw none).1 [pA, pB, pC] (by decide),
   (cref_adjacency_discovery Kw none).2.2.2 pA pB pC rfl rfl rfl
     (by rfl) (by rfl) (by rfl)⟩

/-- C7: when the caller omits the tolerance, the pair test of adjacency
discovery intersects the two reference-curve edges at the maximum of the
two part shape maximum tolerances, which is at least as large as either
one; when the caller supplies a tolerance, the intersection runs at that
value unchanged. -/
theorem cref_working_tolerance :
    ∀ (K : Kernel) (main other : Part) (t : ℚ),
      main.has_cref = true → other.has_cref = true →
      (crefPairIntersects K none main other =
        !(K.intersectVertices (K.edgeByCurve main.cref) (K.edgeByCurve other.cref)
            (max (K.globalTolerance main.shape 1)
              (K.globalTolerance other.shape 1))).isEmpty) ∧
      K.globalTolerance main.shape 1 ≤
        max (K.globalTolerance main.shape 1) (K.globalTolerance other.shape 1) ∧
      K.globalTolerance other.shape 1 ≤
        max (K.globalTolerance main.shape 1) (K.globalTolerance other.shape 1) ∧
      (crefPairIntersects K (some t) main other =
        !(K.intersectVertices (K.edgeByCurve main.cref) (K.edgeByCurve other.cref)
            t).isEmpty) := by
  intro K main other t h1 h2
  refine ⟨?_, le_max_left _ _, le_max_right _ _, ?_⟩ <;>
    simp [crefPairIntersects, h1, h2]

/-- Witness for C7: the pair pA, pB, both with reference curves, under
the witness kernel and the supplied tolerance 5. -/
theorem cref_working_tolerance_witness :
    pA.has_cref = true ∧ pB.has_cref = true ∧
    (crefPairIntersects Kw none pA pB =
      !(Kw.intersectVertices (Kw.edgeByCurve pA.cref) (Kw.edgeByCurve pB.cref)
          (max (Kw.globalTolerance pA.shape 1)
            (Kw.globalTolerance pB.shape 1))).isEmpty) ∧
    Kw.globalTolerance pA.shape 1 ≤
      max (Kw.globalTolerance pA.shape 1) (Kw.globalTolerance pB.shape 1) ∧
    Kw.globalTolerance pB.shape 1 ≤
      max (Kw.globalTolerance pA.shape 1) (Kw.globalTolerance pB.shape 1) ∧
    (crefPairIntersects Kw (some 5) pA pB =
      !(Kw.intersectVertices (Kw.edgeByCurve pA.cref) (Kw.edgeByCurve pB.cref)
          5).isEmpty) :=
  ⟨rfl, rfl, (cref_working_tolerance Kw pA pB 5 rfl rfl).1,
   (cref_working_tolerance Kw pA pB 5 rfl rfl).2.1,
   (cref_working_tolerance Kw pA pB 5 rfl rfl).2.2.1,
   (cref_working_tolerance Kw pA pB 5 rfl rfl).2.2.2⟩

/-- C8: in a sew-parts call, a part whose shape the sewing primitive
reports as unmodified is returned exactly as it was — the identical part
state with the identical shape — while a part reported modified has its
shape rewritten to the modified shape. -/
theorem sew_unmodified_parts_untouched :
    ∀ (K : Kernel) (parts : List Part) (tol max_tol : Option ℚ)
      (sew : SewReport) (res : List Part),
      sewReportOf K parts tol max_tol = .ok sew →
      SewSurfaceParts K parts tol max_tol = .ok res →
      res.length = parts.length ∧
      ∀ i (h1 : i < parts.length) (h2 : i < res.length),
        (sew.is_modified ((parts.get ⟨i, h1⟩).shape) = false →
          res.get ⟨i, h2⟩ = parts.get ⟨i, h1⟩) ∧
        (sew.is_modified ((parts.get ⟨i, h1⟩).shape) = true →
          res.get ⟨i, h2⟩ = { parts.get ⟨i, h1⟩ with
            shape := sew.modified ((parts.get ⟨i, h1⟩).shape) }) := by
  intro K parts tol mt sew res h1 h2
  simp only [SewSurfaceParts, h1] at h2
  injection h2 with h2
  subst h2
  refine ⟨by simp, ?_⟩
  intro i hi hr
  constructor
  · intro hmod
    simp only [List.get_eq_getElem] at hmod ⊢
    simp [List.getElem_map, hmod]
  · intro hmod
    simp only [List.get_eq_getElem] at hmod ⊢
    simp [List.getElem_map, hmod]

/-- Witness for C8: sewing pA and pB with the witness kernel, whose sew
modifies only shape 11: pA is returned untouched and pB is rewritten to
shape 61. -/
theorem sew_unmodified_parts_untouched_witness :
    sewReportOf Kw [pA, pB] none none = .ok wSew ∧
    SewSurfaceParts Kw [pA, pB] none none = .ok [pA, pB61] ∧
    wSew.is_modified pA.shape = false ∧
    ([pA, pB61] : List Part).get ⟨0, by decide⟩ =
      ([pA, pB] : List Part).get ⟨0, by decide⟩ :=
  ⟨rfl, rfl, rfl,
   ((sew_unmodified_parts_untouched Kw [pA, pB] none none wSew [pA, pB61]
       rfl rfl).2 0 (by decide) (by decide)).1 rfl⟩

/-- C9: fuse-assemblies with fewer than two assemblies raises
ValueError immediately: the call returns the invalid-input error before
any kernel primitive is invoked and produces no rebuilt parts. -/
theorem fuse_assemblies_requires_two :
    ∀ (K : Kernel) (assys : List Assembly) (fuzzy : Option ℚ) (inc : Bool),
      assys.length < 2 →
      FuseAssemblies K assys fuzzy inc =
        .error (.valueError "Not enough assemblies to fuse. Need at least two.") := by
  intro K assys fuzzy inc h
  rw [FuseAssemblies, if_pos h]

/-- Witness for C9: the empty assembly list. -/
theorem fuse_assemblies_requires_two_witness :
    ([] : List Assembly).length < 2 ∧
    FuseAssemblies Kw [] none true =
      .error (.valueError "Not enough assemblies to fuse. Need at least two.") :=
  ⟨by decide, fuse_assemblies_requires_two Kw [] none true (by decide)⟩

/-- C10: fuse-by-reference-curve over fewer than two surface parts
completes without error, tests no pair, produces no join group (so no
fuse is performed and no part shape is mutated) and reports is_done
false. -/
theorem cref_fewer_than_two_parts_noop :
    ∀ (K : Kernel) (tol : Option ℚ) (parts : List Part),
      parts.length < 2 → (∀ p ∈ parts, p.isSurface = true) →
      FuseSurfacePartsByCref K parts tol = .ok ([], false) ∧
      crefPairsTested parts = [] := by
  intro K tol parts hlen hsurf
  cases parts with
  | nil => exact ⟨rfl, rfl⟩
  | cons p rest =>
    cases rest with
    | nil =>
      have hp : p.isSurface = true := hsurf p (by simp)
      constructor
      · rw [FuseSurfacePartsByCref, if_pos (by simp [hp])]
        rfl
      · rfl
    | cons q rest2 => exact absurd hlen (by simp)

/-- Witness for C10: the single surface part pA. -/
theorem cref_fewer_than_two_parts_noop_witness :
    ([pA] : List Part).length < 2 ∧
    (∀ p ∈ ([pA] : List Part), p.isSurface = true) ∧
    FuseSurfacePartsByCref Kw [pA] none = .ok ([], false) ∧
    crefPairsTested [pA] = [] :=
  ⟨by decide, by decide,
   (cref_fewer_than_two_parts_noop Kw none [pA] (by decide) (by decide)).1,
   (cref_fewer_than_two_parts_noop Kw none [pA] (by decide) (by decide)).2⟩

end AFEM
